import Mathlib

/-!
Verification of the node health/failover state tracker of easy_proxies
(package `internal/monitor`, file `manager.go`), as a shallow embedding.

Modelling conventions:
* `time.Time` and `time.Duration` are modelled as `Int` (nanoseconds for
  durations); the Go zero value is `0`.  `time.Now()` becomes an explicit
  `now` argument.
* The Go map `nodes map[string]*entry` is modelled as an association list
  kept in insertion order (a determinization of Go's unspecified map
  iteration order); lookup returns the first matching tag, insertion of a
  new tag appends, updates rewrite the matching pair in place.
* `atomic.Int32` is modelled as an `Int` together with explicit two's
  complement wrapping at 32 bits (`wrap32`), since `atomic.Int32.Add`
  wraps on overflow.
* The capability hooks `probe probeFunc` / `release releaseFunc` are
  attached by external code; an attached probe hook is modelled by the
  outcome it would produce on a call (`Except String Int`: error message
  or measured latency), an attached release hook by `Unit`.
* Go errors produced by `Manager.Probe` / `Manager.Release` are modelled
  by the inductive `MErr`, one constructor per distinct error production
  site in the source (`fmt.Errorf("node %s not found", tag)`,
  `errors.New("probe not available for this node")`,
  `errors.New("release not available for this node")`, and the error
  returned by the probe hook itself).
-/

/-- Nanoseconds, Go `time.Duration` (int64). -/
abbrev Duration := Int

/-- Instant, Go `time.Time`; the zero value is `0`. -/
abbrev Time := Int

/-- Go `Duration.Milliseconds()`: `int64(d) / 1e6`, integer division
truncating toward zero. -/
def durationMilliseconds (d : Duration) : Int :=
  Int.tdiv d 1000000

/-- NodeInfo is static metadata about a proxy entry (manager.go lines 25-32). -/
structure NodeInfo where
  tag : String
  name : String
  uri : String
  mode : String
  listenAddress : String
  port : Nat
  deriving DecidableEq, Repr

/-- Outcome an attached probe hook would produce on a call: an error
message, or a measured latency (Go `probeFunc` returns
`(time.Duration, error)`). -/
inductive ProbeOutcome where
  | fail (msg : String)
  | ok (latency : Duration)
  deriving DecidableEq, Repr

/-- Mutable per-node state, Go struct `entry` (manager.go lines 55-68).
The Go field `until` is rendered `untilTime` because `until` is a Lean
keyword.  The `mu` lock is concurrency plumbing with no sequential
content and is not modelled; `active` is the `atomic.Int32` counter. -/
structure Entry where
  info : NodeInfo
  failure : Nat
  blacklist : Bool
  untilTime : Time
  lastError : String
  lastFail : Time
  lastOK : Time
  lastProbe : Duration
  active : Int
  probe : Option ProbeOutcome
  release : Option Unit
  deriving DecidableEq, Repr

/-- Entry created by `Register` for a previously unknown tag:
Go `&entry{info: info}`, every other field at its zero value. -/
def Entry.fresh (info : NodeInfo) : Entry :=
  { info := info, failure := 0, blacklist := false, untilTime := 0,
    lastError := "", lastFail := 0, lastOK := 0, lastProbe := 0,
    active := 0, probe := none, release := none }

/-- Manager aggregates all node states (manager.go lines 71-77).  Only the
`nodes` map is relevant to the registry claims; the probe-target fields
(`cfg`, `probeDst`, `probeReady`) feed `DestinationForProbe` only and are
not modelled. -/
structure Manager where
  nodes : List (String × Entry)
  deriving DecidableEq, Repr

/-- Manager with an empty node map, as built by `NewManager`. -/
def Manager.empty : Manager := { nodes := [] }

/-- Lookup in the association-list model of the Go map: first pair whose
key is the tag. -/
def lookupEntry : List (String × Entry) → String → Option Entry
  | [], _ => none
  | p :: rest, tag => if p.1 = tag then some p.2 else lookupEntry rest tag

/-- Point update of the entry stored under a tag (Go mutates the entry
through the shared pointer; the model rewrites the pair in place). -/
def Manager.updateEntry (m : Manager) (tag : String) (f : Entry → Entry) : Manager :=
  { nodes := m.nodes.map (fun p => if p.1 = tag then (p.1, f p.2) else p) }

/-- Handle to an entry, Go `*EntryHandle` whose `ref` field is `*entry`:
`none` is a nil handle, `some none` a handle with nil `ref`, and
`some (some tag)` a handle referencing the entry registered under `tag`. -/
abbrev Handle := Option (Option String)

/-- Register ensures a node is tracked and returns its entry handle
(manager.go lines 103-114): an existing entry gets only its `info` field
replaced, a new tag gets a fresh zero-valued entry. -/
def Manager.Register (m : Manager) (info : NodeInfo) : Manager × Handle :=
  match lookupEntry m.nodes info.tag with
  | some _ =>
      (m.updateEntry info.tag (fun e => { e with info := info }), some (some info.tag))
  | none =>
      ({ nodes := m.nodes ++ [(info.tag, Entry.fresh info)] }, some (some info.tag))

/-! ### Entry mutators (manager.go lines 205-257) -/

/-- Failure record: `failure++`, `lastError = err.Error()`, `lastFail = time.Now()`. -/
def Entry.recordFailure (e : Entry) (msg : String) (now : Time) : Entry :=
  { e with failure := e.failure + 1, lastError := msg, lastFail := now }

/-- Success record: only `lastOK = time.Now()` (manager.go lines 213-217). -/
def Entry.recordSuccess (e : Entry) (now : Time) : Entry :=
  { e with lastOK := now }

/-- Blacklisting: set the flag and the expiry (manager.go lines 219-224). -/
def Entry.blacklistUntil (e : Entry) (u : Time) : Entry :=
  { e with blacklist := true, untilTime := u }

/-- Blacklist clearing: reset flag and expiry to zero values
(manager.go lines 226-231). -/
def Entry.clearBlacklist (e : Entry) : Entry :=
  { e with blacklist := false, untilTime := 0 }

/-- Two's complement wrap of `atomic.Int32` arithmetic: result in
`[-2^31, 2^31)`. -/
def wrap32 (z : Int) : Int :=
  (z + 2147483648) % 4294967296 - 2147483648

/-- `e.active.Add(1)` (manager.go lines 233-235). -/
def Entry.incActive (e : Entry) : Entry :=
  { e with active := wrap32 (e.active + 1) }

/-- `e.active.Add(-1)` (manager.go lines 237-239): an unconditional
wrapping decrement, with no lower-bound guard. -/
def Entry.decActive (e : Entry) : Entry :=
  { e with active := wrap32 (e.active - 1) }

/-- Attach the probe hook (manager.go lines 241-245). -/
def Entry.setProbe (e : Entry) (o : ProbeOutcome) : Entry :=
  { e with probe := some o }

/-- Attach the release hook (manager.go lines 247-251). -/
def Entry.setRelease (e : Entry) : Entry :=
  { e with release := some () }

/-- Store the measured probe latency (manager.go lines 253-257). -/
def Entry.recordProbeLatency (e : Entry) (d : Duration) : Entry :=
  { e with lastProbe := d }

/-! ### Snapshots (manager.go lines 34-46 and 125-140, 182-203) -/

/-- Runtime view of a proxy node, Go struct `Snapshot` (which embeds
`NodeInfo`, here the `info` field). -/
structure Snapshot where
  info : NodeInfo
  failureCount : Nat
  blacklisted : Bool
  blacklistedUntil : Time
  activeConnections : Int
  lastError : String
  lastFailure : Time
  lastSuccess : Time
  lastProbeLatency : Duration
  lastLatencyMs : Int
  deriving DecidableEq, Repr

/-- Per-entry snapshot (manager.go lines 182-203): the latency field is
`-1` unless the stored probe latency is strictly positive. -/
def Entry.snapshot (e : Entry) : Snapshot :=
  { info := e.info, failureCount := e.failure, blacklisted := e.blacklist,
    blacklistedUntil := e.untilTime, activeConnections := e.active,
    lastError := e.lastError, lastFailure := e.lastFail,
    lastSuccess := e.lastOK, lastProbeLatency := e.lastProbe,
    lastLatencyMs :=
      if 0 < e.lastProbe then durationMilliseconds e.lastProbe else -1 }

/-- Insertion of a snapshot into a name-sorted list, placing it before
the first strictly greater name.  This reproduces the behavior of Go's
`sort.Slice` with `less = Name[i] < Name[j]` on the snapshot list: for
the small slices at issue Go runs an insertion sort, which keeps
elements with equal names in their input order. -/
def insertByName (a : Snapshot) : List Snapshot → List Snapshot
  | [] => [a]
  | b :: l => if a.info.name < b.info.name then a :: b :: l else b :: insertByName a l

/-- Sort of the snapshot list by display name (manager.go lines 136-138). -/
def sortByName : List Snapshot → List Snapshot
  | [] => []
  | a :: l => insertByName a (sortByName l)

/-- Manager-level snapshot (manager.go lines 125-140): one snapshot per
entry of the node map (iterated in the model's insertion order), then
sorted by display name. -/
def Manager.Snapshot (m : Manager) : List Snapshot :=
  sortByName (m.nodes.map (fun p => p.2.snapshot))

/-! ### Probe and Release (manager.go lines 143-180) -/

/-- Errors produced by the manager lookup and capability paths, one
constructor per production site in the source. -/
inductive MErr where
  | notFound (tag : String)
  | probeUnavailable
  | releaseUnavailable
  | probeFailed (msg : String)
  deriving DecidableEq, Repr

deriving instance DecidableEq for Except

/-- Lookup helper, Go method `Manager.entry` (manager.go lines 172-180). -/
def Manager.entryFor (m : Manager) (tag : String) : Except MErr Entry :=
  match lookupEntry m.nodes tag with
  | some e => Except.ok e
  | none => Except.error (MErr.notFound tag)

/-- Effect of the release hook on its entry.
Modelled from the spec: the function attached by `setRelease` is wired by
the engine adapter, which is not under src/; per the spec
(`POST /api/nodes/\x7btag\x7d/release` clears blacklist, and `Release`
"clears blacklist state for the given node"), the hook clears the
entry's blacklist state. -/
def releaseHookEffect : Entry → Entry := Entry.clearBlacklist

/-- Manual health check, Go `Manager.Probe` (manager.go lines 143-157):
unknown tag and missing hook fail without touching state; a hook error
is propagated without recording; a hook success records the latency. -/
def Manager.Probe (m : Manager) (tag : String) : Except MErr Duration × Manager :=
  match lookupEntry m.nodes tag with
  | none => (Except.error (MErr.notFound tag), m)
  | some e =>
      match e.probe with
      | none => (Except.error MErr.probeUnavailable, m)
      | some (ProbeOutcome.fail msg) => (Except.error (MErr.probeFailed msg), m)
      | some (ProbeOutcome.ok d) =>
          (Except.ok d, m.updateEntry tag (fun e2 => e2.recordProbeLatency d))

/-- Release, Go `Manager.Release` (manager.go lines 160-170): unknown tag
and missing hook fail without touching state; otherwise the attached
release hook runs. -/
def Manager.Release (m : Manager) (tag : String) : Except MErr Unit × Manager :=
  match lookupEntry m.nodes tag with
  | none => (Except.error (MErr.notFound tag), m)
  | some e =>
      match e.release with
      | none => (Except.error MErr.releaseUnavailable, m)
      | some _ => (Except.ok (), m.updateEntry tag releaseHookEffect)

/-! ### EntryHandle methods (manager.go lines 259-321)

Every method first checks `h == nil || h.ref == nil` and returns without
effect in that case; the model's `Handle` encodes those two nil layers as
`none` and `some none`. -/

def EntryHandle.RecordFailure : Handle → String → Time → Manager → Manager
  | none, _, _, m => m
  | some none, _, _, m => m
  | some (some tag), msg, now, m => m.updateEntry tag (fun e => e.recordFailure msg now)

def EntryHandle.RecordSuccess : Handle → Time → Manager → Manager
  | none, _, m => m
  | some none, _, m => m
  | some (some tag), now, m => m.updateEntry tag (fun e => e.recordSuccess now)

def EntryHandle.Blacklist : Handle → Time → Manager → Manager
  | none, _, m => m
  | some none, _, m => m
  | some (some tag), u, m => m.updateEntry tag (fun e => e.blacklistUntil u)

def EntryHandle.ClearBlacklist : Handle → Manager → Manager
  | none, m => m
  | some none, m => m
  | some (some tag), m => m.updateEntry tag Entry.clearBlacklist

def EntryHandle.IncActive : Handle → Manager → Manager
  | none, m => m
  | some none, m => m
  | some (some tag), m => m.updateEntry tag Entry.incActive

def EntryHandle.DecActive : Handle → Manager → Manager
  | none, m => m
  | some none, m => m
  | some (some tag), m => m.updateEntry tag Entry.decActive

def EntryHandle.SetProbe : Handle → ProbeOutcome → Manager → Manager
  | none, _, m => m
  | some none, _, m => m
  | some (some tag), o, m => m.updateEntry tag (fun e => e.setProbe o)

def EntryHandle.SetRelease : Handle → Manager → Manager
  | none, m => m
  | some none, m => m
  | some (some tag), m => m.updateEntry tag Entry.setRelease

/-! ### Registry operation sequences (for the counter invariant) -/

/-- One registry operation on a single entry, covering every mutator of
the Go `entry` struct. -/
inductive EntryOp where
  | recordFailure (msg : String) (now : Time)
  | recordSuccess (now : Time)
  | blacklistUntil (u : Time)
  | clearBlacklist
  | incActive
  | decActive
  | setProbe (o : ProbeOutcome)
  | setRelease
  | recordProbeLatency (d : Duration)
  deriving DecidableEq, Repr

/-- Application of one operation to an entry. -/
def applyOp (e : Entry) : EntryOp → Entry
  | EntryOp.recordFailure msg now => e.recordFailure msg now
  | EntryOp.recordSuccess now => e.recordSuccess now
  | EntryOp.blacklistUntil u => e.blacklistUntil u
  | EntryOp.clearBlacklist => e.clearBlacklist
  | EntryOp.incActive => e.incActive
  | EntryOp.decActive => e.decActive
  | EntryOp.setProbe o => e.setProbe o
  | EntryOp.setRelease => e.setRelease
  | EntryOp.recordProbeLatency d => e.recordProbeLatency d

/-- Application of a sequence of operations. -/
def applyOps (e : Entry) (ops : List EntryOp) : Entry :=
  ops.foldl applyOp e

/-- Number of `incActive` operations in a sequence. -/
def incCount (ops : List EntryOp) : Nat :=
  ops.countP (fun op => match op with | EntryOp.incActive => true | _ => false)

/-- Number of `decActive` operations in a sequence. -/
def decCount (ops : List EntryOp) : Nat :=
  ops.countP (fun op => match op with | EntryOp.decActive => true | _ => false)

/-! ### Reload orchestrator -/

/-- Orchestrator states.
Modelled from the spec: the ReloadOrchestrator (spec section 4.3) is not
present under src/ (only the monitor registry and its HTTP surface are);
its state machine is modelled from the spec's words. -/
inductive ReloadState where
  | Idle
  | FetchingNodes
  | BuildingInstance
  | PreflightChecking
  | Switching
  | Draining
  | Closed
  | RolledBack
  deriving DecidableEq, Repr

/-- Engine instance identity bound to one node population.
Modelled from the spec: EngineInstance is an external lifecycle object
wrapped by the core (spec section 2); only its identity and pool binding
matter to the reload claims. -/
structure EngineInstance where
  id : Nat
  pool : List NodeInfo
  deriving DecidableEq, Repr

/-- Inputs and intermediate outcomes of one reload attempt.
Modelled from the spec: a ReloadSession holds the candidate endpoint
list, the candidate instance, and the preflight outcome (spec section 3);
`fetched = none` is a fetch failure/timeout, `builtId = none` a build
failure, and `healthyCount` the preflight-healthy node count. -/
structure ReloadEnv where
  fetched : Option (List NodeInfo)
  builtId : Option Nat
  healthyCount : Nat
  minAvailableNodes : Nat
  deriving DecidableEq, Repr

/-- One reload attempt, returning the terminal state of the session and
the active instance after the attempt.
Modelled from the spec (section 4.3): fetch failure, build failure, and a
preflight-healthy count below `min_available_nodes` each abort to
`RolledBack` with the previous instance untouched; otherwise the
candidate is promoted, the old instance is drained and closed, and the
session ends in `Closed` with the candidate active. -/
def runReload (active : EngineInstance) (env : ReloadEnv) : ReloadState × EngineInstance :=
  match env.fetched with
  | none => (ReloadState.RolledBack, active)
  | some nodes =>
      match env.builtId with
      | none => (ReloadState.RolledBack, active)
      | some cid =>
          if env.healthyCount < env.minAvailableNodes then
            (ReloadState.RolledBack, active)
          else
            (ReloadState.Closed, { id := cid, pool := nodes })

/-- Evolution of the `active` counter alone under one operation. -/
def activeStep (a : Int) : EntryOp → Int
  | EntryOp.incActive => wrap32 (a + 1)
  | EntryOp.decActive => wrap32 (a - 1)
  | _ => a

/-! ### Concrete sample values used to instantiate the theorems -/

/-- Sample node identity. -/
def infoA : NodeInfo :=
  { tag := "a", name := "alpha", uri := "uri-a", mode := "direct",
    listenAddress := "", port := 0 }

/-- Second identity for the same tag as `infoA`, with different display
data (a re-registration). -/
def infoA2 : NodeInfo :=
  { tag := "a", name := "alpha-two", uri := "uri-a2", mode := "direct",
    listenAddress := "", port := 0 }

/-- Identity with tag `a` and display name shared with `infoSameB`. -/
def infoSameA : NodeInfo :=
  { tag := "a", name := "same", uri := "uri-1", mode := "direct",
    listenAddress := "", port := 0 }

/-- Identity with tag `b` and display name shared with `infoSameA`. -/
def infoSameB : NodeInfo :=
  { tag := "b", name := "same", uri := "uri-2", mode := "direct",
    listenAddress := "", port := 0 }

/-- Two same-named entries registered in one order. -/
def mOrder1 : Manager := ((Manager.empty.Register infoSameA).1.Register infoSameB).1

/-- The same two entries registered in the other order. -/
def mOrder2 : Manager := ((Manager.empty.Register infoSameB).1.Register infoSameA).1

/-- Identity with display name `apple`. -/
def infoD1 : NodeInfo :=
  { tag := "a", name := "apple", uri := "uri-1", mode := "direct",
    listenAddress := "", port := 0 }

/-- Identity with display name `banana`. -/
def infoD2 : NodeInfo :=
  { tag := "b", name := "banana", uri := "uri-2", mode := "direct",
    listenAddress := "", port := 0 }

/-- Two distinct-named entries registered in one order. -/
def mDist1 : Manager := ((Manager.empty.Register infoD1).1.Register infoD2).1

/-- The same two distinct-named entries registered in the other order. -/
def mDist2 : Manager := ((Manager.empty.Register infoD2).1.Register infoD1).1

/-- Blacklisted entry whose release hook is attached. -/
def entryR : Entry :=
  { Entry.fresh { tag := "r", name := "rho", uri := "uri-r", mode := "direct",
                  listenAddress := "", port := 0 } with
    blacklist := true, untilTime := 99, release := some () }

/-- Manager holding `entryR` under tag `r`. -/
def mRel : Manager := { nodes := [("r", entryR)] }

/-- Entry whose probe hook reports success with a measured duration of
exactly zero. -/
def entryP0 : Entry :=
  { Entry.fresh { tag := "p", name := "pi", uri := "uri-p", mode := "direct",
                  listenAddress := "", port := 0 } with
    probe := some (ProbeOutcome.ok 0) }

/-- Manager holding `entryP0` under tag `p`. -/
def mProbe0 : Manager := { nodes := [("p", entryP0)] }

/-! ### Lookup lemmas -/

lemma lookupEntry_updateEntry_self (m : Manager) (tag : String) (f : Entry → Entry) :
    lookupEntry (m.updateEntry tag f).nodes tag = (lookupEntry m.nodes tag).map f := by
  rcases m with ⟨nodes⟩
  induction nodes with
  | nil => rfl
  | cons p rest ih =>
      by_cases h : p.1 = tag
      · simp [Manager.updateEntry, lookupEntry, h]
      · simpa [Manager.updateEntry, lookupEntry, h] using ih

lemma lookupEntry_updateEntry_ne (m : Manager) (tag t : String) (f : Entry → Entry)
    (hne : t ≠ tag) :
    lookupEntry (m.updateEntry tag f).nodes t = lookupEntry m.nodes t := by
  rcases m with ⟨nodes⟩
  induction nodes with
  | nil => rfl
  | cons p rest ih =>
      simp only [Manager.updateEntry] at ih ⊢
      by_cases hpt : p.1 = t
      · have hptag : p.1 ≠ tag := fun h => hne (hpt ▸ h)
        simp [lookupEntry, hptag, hpt, hne]
      · by_cases hptag : p.1 = tag
        · have htag : tag ≠ t := fun h => hpt (hptag.trans h)
          simpa [lookupEntry, hptag, hpt, htag] using ih
        · simpa [lookupEntry, hptag, hpt] using ih

lemma lookupEntry_append_singleton (l : List (String × Entry)) (tag : String) (e : Entry)
    (hmiss : lookupEntry l tag = none) :
    lookupEntry (l ++ [(tag, e)]) tag = some e := by
  induction l with
  | nil => simp [lookupEntry]
  | cons p rest ih =>
      by_cases h : p.1 = tag
      · simp [lookupEntry, h] at hmiss
      · simp [lookupEntry, h] at hmiss ⊢
        exact ih hmiss

lemma lookupEntry_append_singleton_ne (l : List (String × Entry)) (tag t : String) (e : Entry)
    (hne : t ≠ tag) :
    lookupEntry (l ++ [(tag, e)]) t = lookupEntry l t := by
  induction l with
  | nil =>
      have htag : tag ≠ t := fun h => hne h.symm
      simp [lookupEntry, htag]
  | cons p rest ih =>
      by_cases h : p.1 = t
      · simp [lookupEntry, h]
      · simp only [List.cons_append, lookupEntry, h, if_false]
        exact ih

/-! ### Claim theorems -/

/-- C1: Register is idempotent on tag and preserves mutable state: for a
tag already registered it replaces only the identity fields (`info`) of
that entry, leaving failure count, blacklist flag, blacklist expiry,
active-connection counter, last error, last-failure/last-success times
and last probe latency unchanged; for a tag not yet registered it creates
a fresh entry with zero-valued mutable state; entries under other tags
are untouched. -/
theorem register_idempotent_preserves_state (m : Manager) (info : NodeInfo) :
    (∀ e, lookupEntry m.nodes info.tag = some e →
        lookupEntry (m.Register info).1.nodes info.tag = some { e with info := info }) ∧
    (lookupEntry m.nodes info.tag = none →
        lookupEntry (m.Register info).1.nodes info.tag = some (Entry.fresh info)) ∧
    (∀ t, t ≠ info.tag → lookupEntry (m.Register info).1.nodes t = lookupEntry m.nodes t) := by
  refine ⟨?_, ?_, ?_⟩
  · intro e he
    simp only [Manager.Register, he]
    rw [lookupEntry_updateEntry_self, he]
    rfl
  · intro hnone
    simp only [Manager.Register, hnone]
    exact lookupEntry_append_singleton m.nodes info.tag (Entry.fresh info) hnone
  · intro t ht
    cases hl : lookupEntry m.nodes info.tag with
    | some e =>
        simp only [Manager.Register, hl]
        exact lookupEntry_updateEntry_ne m info.tag t _ ht
    | none =>
        simp only [Manager.Register, hl]
        exact lookupEntry_append_singleton_ne m.nodes info.tag t _ ht

/-- Witness for C1: re-registering tag `a` with new identity data keeps
the stored mutable state and swaps the identity; a first registration
stores the fresh zero-valued entry. -/
theorem register_idempotent_preserves_state_witness :
    lookupEntry ((Manager.empty.Register infoA).1.Register infoA2).1.nodes infoA2.tag
        = some { Entry.fresh infoA with info := infoA2 } ∧
    lookupEntry (Manager.empty.Register infoA).1.nodes infoA.tag = some (Entry.fresh infoA) := by
  constructor
  · exact (register_idempotent_preserves_state (Manager.empty.Register infoA).1 infoA2).1
      (Entry.fresh infoA) (by decide)
  · exact (register_idempotent_preserves_state Manager.empty infoA).2.1 (by decide)

/-- C6: recordSuccess updates only the last-success timestamp; the
blacklist flag, blacklist expiry, failure count, last-error text,
last-failure time, active-connection counter, last probe latency, and
the attached hooks are all unchanged. -/
theorem recordSuccess_only_sets_lastOK (e : Entry) (now : Time) :
    (e.recordSuccess now).lastOK = now ∧
    (e.recordSuccess now).blacklist = e.blacklist ∧
    (e.recordSuccess now).untilTime = e.untilTime ∧
    (e.recordSuccess now).failure = e.failure ∧
    (e.recordSuccess now).lastError = e.lastError ∧
    (e.recordSuccess now).lastFail = e.lastFail ∧
    (e.recordSuccess now).active = e.active ∧
    (e.recordSuccess now).lastProbe = e.lastProbe ∧
    (e.recordSuccess now).info = e.info ∧
    (e.recordSuccess now).probe = e.probe ∧
    (e.recordSuccess now).release = e.release :=
  ⟨rfl, rfl, rfl, rfl, rfl, rfl, rfl, rfl, rfl, rfl, rfl⟩

/-- C9: every EntryHandle method called on a nil handle or on a handle
with a nil entry reference is a no-op on the manager state; the model
functions are total, so no panic is possible. -/
theorem entryHandle_nil_noop (h : Handle) (m : Manager) (msg : String) (now u : Time)
    (o : ProbeOutcome) (hnil : h = none ∨ h = some none) :
    EntryHandle.RecordFailure h msg now m = m ∧
    EntryHandle.RecordSuccess h now m = m ∧
    EntryHandle.Blacklist h u m = m ∧
    EntryHandle.ClearBlacklist h m = m ∧
    EntryHandle.IncActive h m = m ∧
    EntryHandle.DecActive h m = m ∧
    EntryHandle.SetProbe h o m = m ∧
    EntryHandle.SetRelease h m = m := by
  rcases hnil with rfl | rfl <;>
    exact ⟨rfl, rfl, rfl, rfl, rfl, rfl, rfl, rfl⟩

/-- Witness for C9: the nil handle leaves a concrete manager unchanged
under all eight methods. -/
theorem entryHandle_nil_noop_witness :
    EntryHandle.RecordFailure none "boom" 1 mRel = mRel ∧
    EntryHandle.RecordSuccess none 1 mRel = mRel ∧
    EntryHandle.Blacklist none 2 mRel = mRel ∧
    EntryHandle.ClearBlacklist none mRel = mRel ∧
    EntryHandle.IncActive none mRel = mRel ∧
    EntryHandle.DecActive none mRel = mRel ∧
    EntryHandle.SetProbe none (ProbeOutcome.ok 1) mRel = mRel ∧
    EntryHandle.SetRelease none mRel = mRel :=
  entryHandle_nil_noop none mRel "boom" 1 2 (ProbeOutcome.ok 1) (Or.inl rfl)

/-- C2: a reload attempt whose preflight-healthy count is below
`min_available_nodes` ends in `RolledBack` with the active instance
identity unchanged, and on every failure path (every attempt ending in
`RolledBack`) the active instance identity is unchanged — no partial
adoption of the candidate pool. -/
theorem reload_preflight_rollback (a : EngineInstance) (env : ReloadEnv) :
    (env.healthyCount < env.minAvailableNodes →
        (runReload a env).1 = ReloadState.RolledBack ∧ (runReload a env).2 = a) ∧
    ((runReload a env).1 = ReloadState.RolledBack → (runReload a env).2 = a) := by
  rcases hf : env.fetched with _ | nodes
  · simp [runReload, hf]
  · rcases hb : env.builtId with _ | cid
    · simp [runReload, hf, hb]
    · by_cases hc : env.healthyCount < env.minAvailableNodes
      · simp [runReload, hf, hb, hc]
      · simp [runReload, hf, hb, hc]

/-- Witness for C2: a reload attempt with zero preflight-healthy nodes
against a requirement of one rolls back and keeps the active instance. -/
theorem reload_preflight_rollback_witness :
    (runReload { id := 0, pool := [infoA] }
        { fetched := some [], builtId := some 1, healthyCount := 0,
          minAvailableNodes := 1 }).1 = ReloadState.RolledBack ∧
    (runReload { id := 0, pool := [infoA] }
        { fetched := some [], builtId := some 1, healthyCount := 0,
          minAvailableNodes := 1 }).2 = { id := 0, pool := [infoA] } :=
  (reload_preflight_rollback { id := 0, pool := [infoA] }
    { fetched := some [], builtId := some 1, healthyCount := 0,
      minAvailableNodes := 1 }).1 (by decide)

/-- C4: Probe and Release fail with the not-found error exactly when the
tag is not registered, and with the capability-unavailable error exactly
when the tag is registered but the corresponding hook is not attached;
on every failure path the manager state is unchanged. -/
theorem probe_release_error_classification (m : Manager) (tag : String) :
    ((m.Probe tag).1 = Except.error (MErr.notFound tag) ↔
        lookupEntry m.nodes tag = none) ∧
    ((m.Probe tag).1 = Except.error MErr.probeUnavailable ↔
        ∃ e, lookupEntry m.nodes tag = some e ∧ e.probe = none) ∧
    ((m.Release tag).1 = Except.error (MErr.notFound tag) ↔
        lookupEntry m.nodes tag = none) ∧
    ((m.Release tag).1 = Except.error MErr.releaseUnavailable ↔
        ∃ e, lookupEntry m.nodes tag = some e ∧ e.release = none) ∧
    (∀ err, (m.Probe tag).1 = Except.error err → (m.Probe tag).2 = m) ∧
    (∀ err, (m.Release tag).1 = Except.error err → (m.Release tag).2 = m) := by
  rcases hl : lookupEntry m.nodes tag with _ | e
  · simp [Manager.Probe, Manager.Release, hl]
  · rcases hp : e.probe with _ | po
    · rcases hr : e.release with _ | u
      · simp [Manager.Probe, Manager.Release, hl, hp, hr]
      · simp [Manager.Probe, Manager.Release, hl, hp, hr]
    · rcases hr : e.release with _ | u <;> rcases po with msg | d <;>
        simp [Manager.Probe, Manager.Release, hl, hp, hr]

/-- Witness for C4: on an empty manager both operations report not-found
for an unknown tag and leave the manager unchanged. -/
theorem probe_release_error_classification_witness :
    (Manager.empty.Probe "x").1 = Except.error (MErr.notFound "x") ∧
    (Manager.empty.Probe "x").2 = Manager.empty ∧
    (Manager.empty.Release "x").1 = Except.error (MErr.notFound "x") ∧
    (Manager.empty.Release "x").2 = Manager.empty := by
  have h := probe_release_error_classification Manager.empty "x"
  have hp : (Manager.empty.Probe "x").1 = Except.error (MErr.notFound "x") := h.1.mpr rfl
  have hr : (Manager.empty.Release "x").1 = Except.error (MErr.notFound "x") :=
    h.2.2.1.mpr rfl
  exact ⟨hp, h.2.2.2.2.1 (MErr.notFound "x") hp, hr,
    h.2.2.2.2.2 (MErr.notFound "x") hr⟩

/-- C7: for a registered tag whose release hook is attached, Release
succeeds and afterwards the entry's blacklisted flag is false and its
blacklist expiry is reset to the zero value (the effect of
clearBlacklist). -/
theorem release_clears_blacklist (m : Manager) (tag : String) (e : Entry)
    (hl : lookupEntry m.nodes tag = some e) (hr : e.release = some ()) :
    (m.Release tag).1 = Except.ok () ∧
    lookupEntry (m.Release tag).2.nodes tag =
      some { e with blacklist := false, untilTime := 0 } := by
  refine ⟨?_, ?_⟩
  · simp [Manager.Release, hl, hr]
  · simp only [Manager.Release, hl, hr]
    rw [lookupEntry_updateEntry_self, hl]
    simp [releaseHookEffect, Entry.clearBlacklist, hr]

/-- Witness for C7: releasing the blacklisted entry `entryR` clears its
blacklist flag and resets the expiry. -/
theorem release_clears_blacklist_witness :
    (mRel.Release "r").1 = Except.ok () ∧
    lookupEntry (mRel.Release "r").2.nodes "r" =
      some { entryR with blacklist := false, untilTime := 0 } :=
  release_clears_blacklist mRel "r" entryR (by decide) (by decide)

/-- C8: the snapshot of an entry that has never been probed reports the
latency-in-milliseconds field as the sentinel -1; once a positive
latency has been recorded, the field reports that latency in
milliseconds (Go `Duration.Milliseconds()`, nanoseconds divided by one
million truncating toward zero). -/
theorem snapshot_latency_sentinel :
    (∀ info : NodeInfo, (Entry.fresh info).snapshot.lastLatencyMs = -1) ∧
    (∀ (e : Entry) (d : Duration), 0 < d →
        (e.recordProbeLatency d).snapshot.lastLatencyMs = durationMilliseconds d) := by
  constructor
  · intro info
    simp [Entry.fresh, Entry.snapshot]
  · intro e d hd
    simp [Entry.recordProbeLatency, Entry.snapshot, hd]

/-- Witness for C8: a fresh entry reports -1; recording 7.5ms (7500000ns)
reports 7. -/
theorem snapshot_latency_sentinel_witness :
    (Entry.fresh infoA).snapshot.lastLatencyMs = -1 ∧
    ((Entry.fresh infoA).recordProbeLatency 7500000).snapshot.lastLatencyMs = 7 := by
  constructor
  · exact snapshot_latency_sentinel.1 infoA
  · have h := snapshot_latency_sentinel.2 (Entry.fresh infoA) 7500000 (by decide)
    rw [h]
    decide

/-- C10: the never-probed sentinel also swallows zero measurements:
every entry whose stored probe latency is at most zero snapshots as -1,
and in particular a probe that succeeds with a measured duration of
exactly 0 records latency 0 and the resulting snapshot reports -1,
indistinguishable from a node that was never probed. -/
theorem zero_latency_snapshot_sentinel :
    (∀ e : Entry, e.lastProbe ≤ 0 → e.snapshot.lastLatencyMs = -1) ∧
    (∀ (m : Manager) (tag : String) (e : Entry),
        lookupEntry m.nodes tag = some e → e.probe = some (ProbeOutcome.ok 0) →
        (m.Probe tag).1 = Except.ok 0 ∧
        lookupEntry (m.Probe tag).2.nodes tag = some (e.recordProbeLatency 0) ∧
        (e.recordProbeLatency 0).snapshot.lastLatencyMs = -1) := by
  constructor
  · intro e he
    simp [Entry.snapshot, not_lt.mpr he]
  · intro m tag e hl hp
    refine ⟨?_, ?_, ?_⟩
    · simp [Manager.Probe, hl, hp]
    · simp only [Manager.Probe, hl, hp]
      rw [lookupEntry_updateEntry_self, hl]
      rfl
    · simp [Entry.recordProbeLatency, Entry.snapshot]

/-- Witness for C10: probing `entryP0` (hook succeeds with duration 0)
succeeds, records latency 0, and the snapshot reports the -1 sentinel. -/
theorem zero_latency_snapshot_sentinel_witness :
    (mProbe0.Probe "p").1 = Except.ok 0 ∧
    lookupEntry (mProbe0.Probe "p").2.nodes "p" = some (entryP0.recordProbeLatency 0) ∧
    (entryP0.recordProbeLatency 0).snapshot.lastLatencyMs = -1 :=
  zero_latency_snapshot_sentinel.2 mProbe0 "p" entryP0 (by decide) (by decide)

/-! ### Ordering lemmas for the snapshot sort -/

lemma perm_insertByName (a : Snapshot) (l : List Snapshot) :
    List.Perm (insertByName a l) (a :: l) := by
  induction l with
  | nil => exact List.Perm.refl _
  | cons b l ih =>
      by_cases h : a.info.name < b.info.name
      · simp [insertByName, h]
      · simp only [insertByName, h, if_false]
        exact (ih.cons b).trans (List.Perm.swap a b l)

lemma perm_sortByName (l : List Snapshot) : List.Perm (sortByName l) l := by
  induction l with
  | nil => exact List.Perm.refl _
  | cons a l ih =>
      simp only [sortByName]
      exact (perm_insertByName a (sortByName l)).trans (ih.cons a)

lemma sorted_insertByName (a : Snapshot) (l : List Snapshot)
    (hs : l.Sorted (fun x y => x.info.name ≤ y.info.name)) :
    (insertByName a l).Sorted (fun x y => x.info.name ≤ y.info.name) := by
  induction l with
  | nil => simp [insertByName]
  | cons b l ih =>
      rw [List.sorted_cons] at hs
      by_cases h : a.info.name < b.info.name
      · simp only [insertByName, h, if_true]
        rw [List.sorted_cons]
        refine ⟨?_, ?_⟩
        · intro c hc
          rcases List.mem_cons.mp hc with rfl | hc
          · exact le_of_lt h
          · exact le_trans (le_of_lt h) (hs.1 c hc)
        · rw [List.sorted_cons]
          exact hs
      · simp only [insertByName, h, if_false]
        rw [List.sorted_cons]
        refine ⟨?_, ih hs.2⟩
        intro c hc
        rcases List.mem_cons.mp ((perm_insertByName a l).mem_iff.mp hc) with rfl | hc
        · exact not_lt.mp h
        · exact hs.1 c hc

lemma sorted_sortByName (l : List Snapshot) :
    (sortByName l).Sorted (fun x y => x.info.name ≤ y.info.name) := by
  induction l with
  | nil => simp [sortByName]
  | cons a l ih => exact sorted_insertByName a (sortByName l) ih

lemma snapshot_names_map (nodes : List (String × Entry)) :
    (nodes.map (fun p => p.2.snapshot)).map (fun s => s.info.name)
      = nodes.map (fun p => p.2.info.name) := by
  rw [List.map_map]
  rfl

/-- C3 (amended): Snapshot returns one snapshot per registered entry, in
a name-sorted order; when the display names of the registered entries
are pairwise distinct, the output is determined solely by the display
names, independent of registration order: two managers holding the same
entries in any order produce identical snapshot lists.  (The
counterexample below shows the distinct-name hypothesis is necessary:
with duplicate display names the order of the tied entries follows the
map iteration order, not the name.) -/
theorem snapshot_sorted_and_order_independent (m1 m2 : Manager)
    (hperm : List.Perm m1.nodes m2.nodes)
    (hnames : (m1.nodes.map (fun p => p.2.info.name)).Nodup) :
    Manager.Snapshot m1 = Manager.Snapshot m2 ∧
    List.Perm (Manager.Snapshot m1) (m1.nodes.map (fun p => p.2.snapshot)) ∧
    (Manager.Snapshot m1).Sorted (fun x y => x.info.name ≤ y.info.name) := by
  have hp1 : List.Perm (Manager.Snapshot m1) (m1.nodes.map (fun p => p.2.snapshot)) :=
    perm_sortByName _
  have hp2 : List.Perm (Manager.Snapshot m2) (m2.nodes.map (fun p => p.2.snapshot)) :=
    perm_sortByName _
  have hmap : List.Perm (m1.nodes.map (fun p => p.2.snapshot))
      (m2.nodes.map (fun p => p.2.snapshot)) := hperm.map _
  have hp : List.Perm (Manager.Snapshot m1) (Manager.Snapshot m2) :=
    hp1.trans (hmap.trans hp2.symm)
  have hs1 := sorted_sortByName (m1.nodes.map (fun p => p.2.snapshot))
  have hs2 := sorted_sortByName (m2.nodes.map (fun p => p.2.snapshot))
  have hn1 : ((Manager.Snapshot m1).map (fun s => s.info.name)).Nodup := by
    have h0 : ((m1.nodes.map (fun p => p.2.snapshot)).map (fun s => s.info.name)).Nodup := by
      rw [snapshot_names_map]
      exact hnames
    exact ((hp1.map (fun s => s.info.name)).nodup_iff).mpr h0
  have hn2 : ((Manager.Snapshot m2).map (fun s => s.info.name)).Nodup :=
    ((hp.map (fun s => s.info.name)).nodup_iff).mp hn1
  haveI : IsAntisymm Snapshot (fun x y => x.info.name < y.info.name) :=
    ⟨fun a b h1 h2 => absurd h2 (lt_asymm h1)⟩
  have hlt : ∀ l : List Snapshot,
      l.Sorted (fun x y => x.info.name ≤ y.info.name) →
      (l.map (fun s => s.info.name)).Nodup →
      l.Sorted (fun x y => x.info.name < y.info.name) := by
    intro l hle hnd
    have hne : l.Pairwise (fun x y => x.info.name ≠ y.info.name) :=
      List.pairwise_map.mp hnd
    exact (List.Pairwise.and hle hne).imp (fun h => lt_of_le_of_ne h.1 h.2)
  refine ⟨?_, hp1, hs1⟩
  exact List.eq_of_perm_of_sorted hp
    (hlt _ hs1 hn1) (hlt _ hs2 hn2)

/-- Counterexample for C3 as stated: two managers holding the same two
entries (equal display name `same`, distinct tags) registered in
different orders produce different snapshot lists, so the output order
is not determined solely by the display name. -/
theorem snapshot_order_counterexample :
    List.Perm mOrder1.nodes mOrder2.nodes ∧
    Manager.Snapshot mOrder1 ≠ Manager.Snapshot mOrder2 := by
  have hab : ("a" : String) ≠ "b" := by decide
  have hsame : ¬ (("same" : String) < "same") := lt_irrefl _
  have hn1 : mOrder1.nodes = [("a", Entry.fresh infoSameA), ("b", Entry.fresh infoSameB)] := by
    simp [mOrder1, Manager.Register, Manager.empty, Manager.updateEntry, lookupEntry,
      infoSameA, infoSameB, hab]
  have hn2 : mOrder2.nodes = [("b", Entry.fresh infoSameB), ("a", Entry.fresh infoSameA)] := by
    simp [mOrder2, Manager.Register, Manager.empty, Manager.updateEntry, lookupEntry,
      infoSameA, infoSameB, hab, hab.symm]
  constructor
  · rw [hn1, hn2]
    exact List.Perm.swap _ _ _
  · have hname : (Entry.fresh infoSameA).snapshot.info.name = "same" := rfl
    have hname2 : (Entry.fresh infoSameB).snapshot.info.name = "same" := rfl
    have h1 : Manager.Snapshot mOrder1
        = [(Entry.fresh infoSameB).snapshot, (Entry.fresh infoSameA).snapshot] := by
      rw [Manager.Snapshot, hn1]
      simp [sortByName, insertByName, hname, hname2, hsame]
    have h2 : Manager.Snapshot mOrder2
        = [(Entry.fresh infoSameA).snapshot, (Entry.fresh infoSameB).snapshot] := by
      rw [Manager.Snapshot, hn2]
      simp [sortByName, insertByName, hname, hname2, hsame]
    rw [h1, h2]
    intro h
    have htags := congrArg (fun l => l.map (fun s => s.info.tag)) h
    simp [Entry.fresh, Entry.snapshot, infoSameA, infoSameB] at htags

/-- Witness for C3 (amended): two distinct-named entries registered in
either order produce the same snapshot list. -/
theorem snapshot_sorted_and_order_independent_witness :
    Manager.Snapshot mDist1 = Manager.Snapshot mDist2 ∧
    List.Perm (Manager.Snapshot mDist1) (mDist1.nodes.map (fun p => p.2.snapshot)) ∧
    (Manager.Snapshot mDist1).Sorted (fun x y => x.info.name ≤ y.info.name) :=
  snapshot_sorted_and_order_independent mDist1 mDist2 (by decide) (by decide)

/-! ### Active-counter lemmas -/

lemma applyOp_active (e : Entry) (op : EntryOp) :
    (applyOp e op).active = activeStep e.active op := by
  cases op <;> rfl

lemma applyOps_active (ops : List EntryOp) : ∀ e : Entry,
    (applyOps e ops).active = ops.foldl activeStep e.active := by
  induction ops with
  | nil => intro e; rfl
  | cons op rest ih =>
      intro e
      show (applyOps (applyOp e op) rest).active = _
      rw [ih (applyOp e op), applyOp_active]
      rfl

lemma wrap32_eq_self (z : Int) (h1 : -2147483648 ≤ z) (h2 : z < 2147483648) :
    wrap32 z = z := by
  unfold wrap32
  have h3 : 0 ≤ z + 2147483648 := by linarith
  have h4 : z + 2147483648 < 4294967296 := by linarith
  rw [Int.emod_eq_of_lt h3 h4]
  ring

lemma incCount_append (l1 l2 : List EntryOp) :
    incCount (l1 ++ l2) = incCount l1 + incCount l2 :=
  List.countP_append _ _ _

lemma decCount_append (l1 l2 : List EntryOp) :
    decCount (l1 ++ l2) = decCount l1 + decCount l2 :=
  List.countP_append _ _ _

lemma take_append_le {α : Type} (l1 l2 : List α) (n : Nat) (hn : n ≤ l1.length) :
    (l1 ++ l2).take n = l1.take n := by
  induction l1 generalizing n with
  | nil =>
      have : n = 0 := Nat.le_zero.mp hn
      simp [this]
  | cons a l ih =>
      cases n with
      | zero => rfl
      | succ k =>
          simp only [List.cons_append, List.take_succ_cons]
          rw [ih k (Nat.le_of_succ_le_succ hn)]

lemma foldl_activeStep_eq (ops : List EntryOp)
    (hbr : ∀ n, n ≤ ops.length →
        decCount (ops.take n) ≤ incCount (ops.take n) ∧
        ((incCount (ops.take n) : Int) - (decCount (ops.take n) : Int)) < 2147483648) :
    List.foldl activeStep 0 ops = (incCount ops : Int) - (decCount ops : Int) := by
  induction ops using List.reverseRecOn with
  | nil => decide
  | append_singleton q op ih =>
      have hq : ∀ n, n ≤ q.length →
          decCount (q.take n) ≤ incCount (q.take n) ∧
          ((incCount (q.take n) : Int) - (decCount (q.take n) : Int)) < 2147483648 := by
        intro n hn
        have h := hbr n (by simp; omega)
        rwa [take_append_le q [op] n hn] at h
      have hful := hbr (q ++ [op]).length le_rfl
      rw [List.take_length] at hful
      rw [List.foldl_append, ih hq]
      have hcnt := hful.1
      have hbound := hful.2
      cases op with
      | incActive =>
          show wrap32 ((incCount q : Int) - (decCount q : Int) + 1) = _
          rw [incCount_append, decCount_append] at hcnt hbound ⊢
          have e1 : incCount [EntryOp.incActive] = 1 := rfl
          have e2 : decCount [EntryOp.incActive] = 0 := rfl
          rw [e1, e2] at hcnt hbound ⊢
          rw [wrap32_eq_self _ (by omega) (by omega)]
          push_cast
          ring
      | decActive =>
          show wrap32 ((incCount q : Int) - (decCount q : Int) - 1) = _
          rw [incCount_append, decCount_append] at hcnt hbound ⊢
          have e1 : incCount [EntryOp.decActive] = 0 := rfl
          have e2 : decCount [EntryOp.decActive] = 1 := rfl
          rw [e1, e2] at hcnt hbound ⊢
          rw [wrap32_eq_self _ (by omega) (by omega)]
          push_cast
          ring
      | recordFailure msg now =>
          show (incCount q : Int) - (decCount q : Int) = _
          rw [incCount_append, decCount_append]
          have e1 : incCount [EntryOp.recordFailure msg now] = 0 := rfl
          have e2 : decCount [EntryOp.recordFailure msg now] = 0 := rfl
          rw [e1, e2]
          push_cast
          ring
      | recordSuccess now =>
          show (incCount q : Int) - (decCount q : Int) = _
          rw [incCount_append, decCount_append]
          have e1 : incCount [EntryOp.recordSuccess now] = 0 := rfl
          have e2 : decCount [EntryOp.recordSuccess now] = 0 := rfl
          rw [e1, e2]
          push_cast
          ring
      | blacklistUntil u =>
          show (incCount q : Int) - (decCount q : Int) = _
          rw [incCount_append, decCount_append]
          have e1 : incCount [EntryOp.blacklistUntil u] = 0 := rfl
          have e2 : decCount [EntryOp.blacklistUntil u] = 0 := rfl
          rw [e1, e2]
          push_cast
          ring
      | clearBlacklist =>
          show (incCount q : Int) - (decCount q : Int) = _
          rw [incCount_append, decCount_append]
          have e1 : incCount [EntryOp.clearBlacklist] = 0 := rfl
          have e2 : decCount [EntryOp.clearBlacklist] = 0 := rfl
          rw [e1, e2]
          push_cast
          ring
      | setProbe o =>
          show (incCount q : Int) - (decCount q : Int) = _
          rw [incCount_append, decCount_append]
          have e1 : incCount [EntryOp.setProbe o] = 0 := rfl
          have e2 : decCount [EntryOp.setProbe o] = 0 := rfl
          rw [e1, e2]
          push_cast
          ring
      | setRelease =>
          show (incCount q : Int) - (decCount q : Int) = _
          rw [incCount_append, decCount_append]
          have e1 : incCount [EntryOp.setRelease] = 0 := rfl
          have e2 : decCount [EntryOp.setRelease] = 0 := rfl
          rw [e1, e2]
          push_cast
          ring
      | recordProbeLatency d =>
          show (incCount q : Int) - (decCount q : Int) = _
          rw [incCount_append, decCount_append]
          have e1 : incCount [EntryOp.recordProbeLatency d] = 0 := rfl
          have e2 : decCount [EntryOp.recordProbeLatency d] = 0 := rfl
          rw [e1, e2]
          push_cast
          ring

/-- Counterexample for C5 as stated: a single `decActive` on a freshly
registered entry drives the active-connection counter to -1, below
zero — the decrement has no lower-bound guard. -/
theorem active_counter_negative_counterexample :
    (applyOps (Entry.fresh infoA) [EntryOp.decActive]).active = -1 ∧
    ¬ (0 ≤ (applyOps (Entry.fresh infoA) [EntryOp.decActive]).active) := by
  constructor <;> decide

/-- C5 (amended): for bracketed operation sequences — every prefix has
at least as many `incActive` as `decActive` operations, with the excess
below 2^31 so the int32 counter cannot overflow — the active-connection
counter stays at or above 0 after every prefix.  (The counterexample
above shows the bracketing hypothesis is necessary: `decActive` itself
is an unconditional decrement.) -/
theorem active_counter_nonneg_bracketed (info : NodeInfo) (ops : List EntryOp)
    (hbr : ∀ n, n ≤ ops.length →
        decCount (ops.take n) ≤ incCount (ops.take n) ∧
        ((incCount (ops.take n) : Int) - (decCount (ops.take n) : Int)) < 2147483648) :
    ∀ n, 0 ≤ (applyOps (Entry.fresh info) (ops.take n)).active := by
  intro n
  have hplen : (ops.take n).length ≤ ops.length := by
    rw [List.length_take]
    exact min_le_right _ _
  have hpre : ∀ k, k ≤ (ops.take n).length → (ops.take n).take k = ops.take k := by
    intro k hk
    rw [List.take_take]
    have hkn : k ≤ n := by
      rw [List.length_take] at hk
      exact le_trans hk (min_le_left _ _)
    rw [Nat.min_eq_left hkn]
  have hbrp : ∀ k, k ≤ (ops.take n).length →
      decCount ((ops.take n).take k) ≤ incCount ((ops.take n).take k) ∧
      ((incCount ((ops.take n).take k) : Int) - (decCount ((ops.take n).take k) : Int))
        < 2147483648 := by
    intro k hk
    rw [hpre k hk]
    exact hbr k (le_trans (le_trans hk hplen) le_rfl)
  rw [applyOps_active]
  have h0 : (Entry.fresh info).active = 0 := rfl
  rw [h0, foldl_activeStep_eq (ops.take n) hbrp]
  have hlast := hbrp (ops.take n).length le_rfl
  rw [List.take_length] at hlast
  omega

/-- Witness for C5 (amended): an increment followed by a matching
decrement keeps the counter at or above zero. -/
theorem active_counter_nonneg_bracketed_witness :
    0 ≤ (applyOps (Entry.fresh infoA)
        ([EntryOp.incActive, EntryOp.decActive].take 2)).active :=
  active_counter_nonneg_bracketed infoA [EntryOp.incActive, EntryOp.decActive] (by decide) 2
